import Mathlib

/-!
Shallow embedding of the alx-polly polling application (Next.js + Supabase)
for checking its natural-language specification.

Conventions of the embedding:
* JavaScript strings are modelled as `Str := List Char`; `.length` is the
  list length and `String.prototype.trim` is `jsTrim` below.
* The relational store is modelled as explicit lists of rows; `.single()`
  row lookups become `List.find?` (row ids are assumed unique, as they are
  primary keys in the schema).
* Server actions are pure state-passing functions returning
  `(Option Str) × state`, where `none` is the success result `{}` of the
  TypeScript code and `some msg` is `{ error: msg }`.
* Timestamps (`created_at`, `updated_at`) are set by the store and play no
  role in any claim, so poll rows carry only `id`, `user_id`, `question`,
  `options`.
* `option_index` values are modelled as rationals: the JSON vote route
  receives an arbitrary JSON number, and every comparison the code performs
  on it (`< 0`, `>= options.length`) is an order comparison that agrees
  with the rational order on the exactly-representable values used here.
-/

/-- JavaScript strings as lists of characters. -/
abbrev Str := List Char

/-- Coerce a Lean string literal into the `Str` model. -/
def str (s : String) : Str := s.toList

/-- The WhiteSpace and LineTerminator characters removed by
`String.prototype.trim` (ECMA-262): TAB, LF, VT, FF, CR, SP, NBSP,
Ogham space, the Zs range U+2000..U+200A, LS, PS, NNBSP, MMSP,
ideographic space and ZWNBSP. -/
def isJsWhitespace (c : Char) : Bool :=
  c = '\t' ∨ c = '\n' ∨ c = '\u000B' ∨ c = '\u000C' ∨ c = '\r' ∨ c = ' ' ∨
  c = '\u00A0' ∨ c = '\u1680' ∨
  ('\u2000' ≤ c ∧ c ≤ '\u200A') ∨
  c = '\u2028' ∨ c = '\u2029' ∨ c = '\u202F' ∨ c = '\u205F' ∨
  c = '\u3000' ∨ c = '\uFEFF'

/-- `String.prototype.trim`: drop leading and trailing whitespace. -/
def jsTrim (s : Str) : Str :=
  (((s.dropWhile isJsWhitespace).reverse.dropWhile isJsWhitespace)).reverse

/-- The filter used by `sanitizeOptions`: kept entries are non-empty and at
most 200 characters long. -/
def optionKeep (o : Str) : Bool := 0 < o.length ∧ o.length ≤ 200

/-- `sanitizeOptions` from `app/lib/actions/poll-actions.ts`: trim each
entry, drop entries that become empty or exceed 200 characters. -/
def sanitizeOptions (options : List Str) : List Str :=
  (options.map jsTrim).filter optionKeep

/-- `new Set(xs).size` as used by the duplicate-option check: the number of
distinct elements of `xs`. -/
def setSize (xs : List Str) : Nat := xs.dedup.length

/-- Entry of the in-memory rate-limit store (`lib/rate-limit.ts`):
request count and window reset time. Counts and times are JS numbers used
only at integral values, modelled as `Int`. -/
structure RateLimitEntry where
  count : Int
  resetTime : Int
deriving DecidableEq, Repr

/-- The in-memory `Map` of rate-limit entries, as an association list with
the `Map` lookup/set semantics used by the code. -/
abbrev RLStore := List (Str × RateLimitEntry)

/-- `rateLimitStore.get(key)`. -/
def rlGet (store : RLStore) (key : Str) : Option RateLimitEntry :=
  (store.find? (fun kv => kv.fst = key)).map (·.snd)

/-- `rateLimitStore.set(key, entry)`: replace any existing binding. -/
def rlSet (store : RLStore) (key : Str) (e : RateLimitEntry) : RLStore :=
  (key, e) :: store.filter (fun kv => ¬ kv.fst = key)

/-- Result record of `rateLimit`. -/
structure RLResult where
  allowed : Bool
  remaining : Int
  resetTime : Int
deriving DecidableEq, Repr

/-- `rateLimit(identifier, maxRequests, windowMs)` from `lib/rate-limit.ts`,
with the store and the clock passed explicitly. Returns the result record
and the updated store. -/
def rateLimit (store : RLStore) (now : Int) (identifier : Str)
    (maxRequests : Int) (windowMs : Int) : RLResult × RLStore :=
  match rlGet store identifier with
  | none =>
      (⟨true, maxRequests - 1, now + windowMs⟩,
        rlSet store identifier ⟨1, now + windowMs⟩)
  | some entry =>
      if now > entry.resetTime then
        (⟨true, maxRequests - 1, now + windowMs⟩,
          rlSet store identifier ⟨1, now + windowMs⟩)
      else if entry.count ≥ maxRequests then
        (⟨false, 0, entry.resetTime⟩, store)
      else
        (⟨true, maxRequests - (entry.count + 1), entry.resetTime⟩,
          rlSet store identifier ⟨entry.count + 1, entry.resetTime⟩)

/-- A row of the `polls` table. Timestamp columns are set by the store and
unused by every claim, so they are omitted. -/
structure Poll where
  id : Str
  user_id : Str
  question : Str
  options : List Str
deriving DecidableEq, Repr

/-- A row of the `votes` table. `user_id` is null for anonymous votes.
`option_index` is the JS number the handler inserted (see the header
comment on the rational model). -/
structure Vote where
  poll_id : Str
  user_id : Option Str
  option_index : ℚ
deriving DecidableEq, Repr

/-- The state a server action sees and updates: the two tables plus the
process-local rate-limit store. -/
structure AppState where
  polls : List Poll
  votes : List Vote
  rl : RLStore
deriving DecidableEq, Repr

/-- A Postgres error as surfaced by the store client. -/
structure PgError where
  code : Str
  message : Str
deriving DecidableEq, Repr

/-- The uniqueness-violation error raised by the partial unique index
`votes_poll_user_unique` on `(poll_id, user_id) where user_id is not null`
(schema file in the repository). -/
def duplicateKeyError : PgError :=
  ⟨str "23505",
   str "duplicate key value violates unique constraint votes_poll_user_unique"⟩

/-- Store-side insert into `votes`: enforces the partial unique index on
`(poll_id, user_id)` for non-null `user_id` and otherwise appends the row. -/
def votesInsert (votes : List Vote) (v : Vote) : Except PgError (List Vote) :=
  match v.user_id with
  | some u =>
      if votes.any (fun w => w.poll_id = v.poll_id ∧ w.user_id = some u) then
        .error duplicateKeyError
      else
        .ok (votes ++ [v])
  | none => .ok (votes ++ [v])

-- User-visible messages of the actions (`poll-actions.ts`, vote route).

def msgLoginCreate : Str := str "You must be logged in to create a poll."

def msgTooManyPolls : Str := str "Too many polls created. Please try again later."

def msgQuestionRequired : Str := str "Question is required."

def msgQuestionLong : Str := str "Question must be less than 500 characters."

def msgMinOptions : Str := str "At least two options are required."

def msgMaxOptions : Str := str "Maximum 10 options allowed."

def msgOptionLength : Str := str "All options must be between 1 and 200 characters."

def msgDuplicateOptions : Str := str "Duplicate options are not allowed."

def msgLoginUpdate : Str := str "You must be logged in to update a poll."

def msgPollNotFound : Str := str "Poll not found."

def msgNoPermission : Str := str "You do not have permission to update this poll."

def msgLoginDelete : Str := str "You must be logged in to delete a poll."

def msgInvalidPollOrIndex : Str := str "Invalid poll ID or option index."

def msgInvalidOption : Str := str "Invalid option selected."

def msgAlreadyVoted : Str := str "You have already voted on this poll."

def msgTooManyRequests : Str := str "Too many requests"

/-- The validation chain that `createPoll` and `updatePoll` inline
verbatim (the TypeScript block is copy-pasted between the two actions):
question required and at most 500 characters after trim, 2 to 10 options,
all options surviving sanitization, no duplicates among the sanitized
options. Returns the first error, or `none` when validation passes. -/
def validatePollInput (questionRaw : Str) (options : List Str) :
    Option Str :=
  let question := jsTrim questionRaw
  if question.length = 0 then some msgQuestionRequired
  else if 500 < question.length then some msgQuestionLong
  else if options.length < 2 then some msgMinOptions
  else if 10 < options.length then some msgMaxOptions
  else
    let sanitized := sanitizeOptions options
    if sanitized.length ≠ options.length then some msgOptionLength
    else if setSize sanitized ≠ sanitized.length then some msgDuplicateOptions
    else none

/-- `createPoll(formData)` server action (`poll-actions.ts`). `user` is the
result of `supabase.auth.getUser()`, `clientIP` the value extracted from the
forwarding headers, `questionRaw` and `options` the form fields coerced to
strings, and `newId` the id the store assigns to the inserted row. -/
def createPoll (st : AppState) (now : Int) (user : Option Str)
    (clientIP : Str) (questionRaw : Str) (options : List Str)
    (newId : Str) : Option Str × AppState :=
  match user with
  | none => (some msgLoginCreate, st)
  | some uid =>
      let res := rateLimit st.rl now (str "createPoll:" ++ clientIP) 10 3600000
      let st1 := { st with rl := res.2 }
      if res.1.allowed = false then (some msgTooManyPolls, st1)
      else
        match validatePollInput questionRaw options with
        | some m => (some m, st1)
        | none =>
            (none, { st1 with polls := st1.polls ++
              [⟨newId, uid, jsTrim questionRaw, sanitizeOptions options⟩] })

/-- `updatePoll(id, formData)` server action (`poll-actions.ts`):
authenticate, fetch the current owner, verify ownership, validate, then
update the row scoped by `id` and `user_id`. -/
def updatePoll (st : AppState) (user : Option Str) (id : Str)
    (questionRaw : Str) (options : List Str) : Option Str × AppState :=
  match user with
  | none => (some msgLoginUpdate, st)
  | some uid =>
      match st.polls.find? (fun p => p.id = id) with
      | none => (some msgPollNotFound, st)
      | some existingPoll =>
          if existingPoll.user_id ≠ uid then (some msgNoPermission, st)
          else
            match validatePollInput questionRaw options with
            | some m => (some m, st)
            | none =>
                (none, { st with polls := st.polls.map (fun p =>
                  if p.id = id ∧ p.user_id = uid then
                    { p with question := jsTrim questionRaw,
                             options := sanitizeOptions options }
                  else p) })

/-- `deletePoll(id)` server action (`poll-actions.ts`): authenticate, then
delete rows matching `id` and `user_id`. The store reports no error when
zero rows match, and the action returns success `{}` in that case. -/
def deletePoll (st : AppState) (user : Option Str) (id : Str) :
    Option Str × AppState :=
  match user with
  | none => (some msgLoginDelete, st)
  | some uid =>
      (none, { st with polls :=
        st.polls.filter (fun p => ¬ (p.id = id ∧ p.user_id = uid)) })

/-- Does `l` start with `pre`? (helper for the regex test below). -/
def seqStartsWith : Str → Str → Bool
  | [], _ => true
  | _ :: _, [] => false
  | a :: p, b :: t => a = b && seqStartsWith p t

/-- Does `hay` contain `needle` as a contiguous substring? -/
def seqContains : Str → Str → Bool
  | [], needle => needle.isEmpty
  | a :: t, needle => seqStartsWith needle (a :: t) || seqContains t needle

/-- The test `/duplicate key/i.test(message)` of the de-duplicating vote
action: case-insensitive substring search. -/
def containsDupKey (message : Str) : Bool :=
  seqContains (message.map Char.toLower) (str "duplicate key")

/-- Duplicate pre-check of the vote handlers: does an authenticated user
already have a vote row for this poll? (`.single()` on the `votes` select;
`data` is non-null exactly when a row matches.) -/
def hasPriorVote (votes : List Vote) (user : Option Str) (pollId : Str) :
    Bool :=
  match user with
  | some uid =>
      (votes.find? (fun w => w.poll_id = pollId ∧ w.user_id = some uid)).isSome
  | none => false

/-- `voteOnPoll(pollId, formData)` server action, primary variant of
`poll-actions.ts` (no vote rate limit, no constraint translation).
`optionIndex` is the result of `Number.parseInt` on the form field:
`none` models `NaN`, otherwise an integer. `race` holds vote rows written
by concurrent requests between the duplicate pre-check and the insert, so
the insert runs against `st.votes ++ race`. -/
def voteOnPoll (st : AppState) (race : List Vote) (user : Option Str)
    (pollId : Str) (optionIndex : Option Int) : Option Str × AppState :=
  if pollId = [] ∨ optionIndex = none ∨ optionIndex.getD 0 < 0 then
    (some msgInvalidPollOrIndex, st)
  else
    match st.polls.find? (fun p => p.id = pollId) with
    | none => (some msgPollNotFound, st)
    | some poll =>
        let idx := optionIndex.getD 0
        if (poll.options.length : Int) ≤ idx then (some msgInvalidOption, st)
        else if hasPriorVote st.votes user pollId then (some msgAlreadyVoted, st)
        else
          match votesInsert (st.votes ++ race) ⟨pollId, user, (idx : ℚ)⟩ with
          | .error e => (some e.message, st)
          | .ok vs => (none, { st with votes := vs })

/-- `voteOnPoll` server action, de-duplicating variant of
`poll-actions.ts`: per-IP vote rate limit (5 per minute) and translation of
an insert-time uniqueness violation (code 23505 or a `duplicate key`
message) into the same already-voted error as the pre-check. -/
def voteOnPollDedup (st : AppState) (now : Int) (voteIp : Str)
    (race : List Vote) (user : Option Str) (pollId : Str)
    (optionIndex : Option Int) : Option Str × AppState :=
  let rres := rateLimit st.rl now (str "vote:" ++ voteIp) 5 60000
  let st1 := { st with rl := rres.2 }
  if rres.1.allowed = false then (some msgTooManyRequests, st1)
  else if pollId = [] ∨ optionIndex = none ∨ optionIndex.getD 0 < 0 then
    (some msgInvalidPollOrIndex, st1)
  else
    match st1.polls.find? (fun p => p.id = pollId) with
    | none => (some msgPollNotFound, st1)
    | some poll =>
        let idx := optionIndex.getD 0
        if (poll.options.length : Int) ≤ idx then (some msgInvalidOption, st1)
        else if hasPriorVote st1.votes user pollId then
          (some msgAlreadyVoted, st1)
        else
          match votesInsert (st1.votes ++ race) ⟨pollId, user, (idx : ℚ)⟩ with
          | .error e =>
              if e.code = str "23505" ∨ containsDupKey e.message then
                (some msgAlreadyVoted, st1)
              else (some e.message, st1)
          | .ok vs => (none, { st1 with votes := vs })

/-- A JSON value submitted as `optionIndex` to the vote route: a number, or
anything that is not a number (string, null, object, ...). -/
inductive JsonVal where
  | num (q : ℚ)
  | other
deriving DecidableEq, Repr

/-- `POST /api/polls/{id}/vote` (`app/api/polls/[id]/vote/route.ts`).
Returns `((error?, httpStatus), votes-after)`. The route checks only
`typeof optionIndex === "number"`, `optionIndex >= 0` and
`optionIndex < poll.options.length`; the insert error is returned raw with
status 500. -/
def postVote (polls : List Poll) (votes : List Vote) (race : List Vote)
    (user : Option Str) (pollId : Str) (optionIndex : JsonVal) :
    (Option Str × Int) × List Vote :=
  match optionIndex with
  | .other => ((some msgInvalidPollOrIndex, 400), votes)
  | .num q =>
      if pollId = [] ∨ q < 0 then ((some msgInvalidPollOrIndex, 400), votes)
      else
        match polls.find? (fun p => p.id = pollId) with
        | none => ((some msgPollNotFound, 404), votes)
        | some poll =>
            if (poll.options.length : ℚ) ≤ q then
              ((some msgInvalidOption, 400), votes)
            else if hasPriorVote votes user pollId then
              ((some msgAlreadyVoted, 409), votes)
            else
              match votesInsert (votes ++ race) ⟨pollId, user, q⟩ with
              | .error e => ((some e.message, 500), votes)
              | .ok vs => ((none, 200), vs)

/-- The authenticated user as seen by the admin page. `isAdminRole` is
modelled from the spec: the durable role attribute (claim or role-table
entry) that the spec requires; the source user object carries no such
attribute and the page never consults one. -/
structure AuthUser where
  id : Str
  email : Str
  isAdminRole : Bool
deriving DecidableEq, Repr

/-- Outcome of rendering `app/(dashboard)/admin/page.tsx`. -/
inductive AdminView where
  | redirectLogin
  | redirectPolls
  | showPolls (polls : List Poll)
deriving DecidableEq, Repr

/-- The admin check of `admin/page.tsx`:
`user?.email === "admin@example.com"`. -/
def isAdminCheck (u : AuthUser) : Bool := u.email = str "admin@example.com"

/-- The admin page flow: unauthenticated users are redirected to login,
users failing `isAdminCheck` are redirected to their dashboard, everyone
else gets `fetchAllPolls()` — every poll row, owner ids included, with no
server-side filter. -/
def adminPage (polls : List Poll) (user : Option AuthUser) : AdminView :=
  match user with
  | none => .redirectLogin
  | some u => if isAdminCheck u then .showPolls polls else .redirectPolls

/-- A poll row fixture owned by user `B`. -/
def pollB : Poll := ⟨str "p1", str "B", str "q", [str "a", str "b"]⟩

/-- App state fixture: one poll owned by `B`, no votes, fresh limiter. -/
def stB : AppState := ⟨[pollB], [], []⟩

/-- The validation-stage error messages of `createPoll` and `updatePoll`. -/
def validationMsgs : List Str :=
  [msgQuestionRequired, msgQuestionLong, msgMinOptions, msgMaxOptions,
   msgOptionLength, msgDuplicateOptions]

/-- Option fixture used by the C5 iteration. -/
def c5Opts : List Str := [str "a", str "b"]

/-- `n` consecutive `createPoll` calls by user `u1` from IP `1.1.1.1`
at time 0, starting from the empty state. -/
def c5Iter : Nat → AppState
  | 0 => ⟨[], [], []⟩
  | n + 1 =>
      (createPoll (c5Iter n) 0 (some (str "u1")) (str "1.1.1.1") (str "q")
        c5Opts (str "p")).2

/-- Run a sequence of `rateLimit` calls (pairs of clock value and window)
against one key, threading the store. -/
def rlRun (k : Str) (mx : Int) : List (Int × Int) → RLStore → RLStore
  | [], s => s
  | (now, w) :: rest, s => rlRun k mx rest (rateLimit s now k mx w).2

-- Basic facts about `dropWhile` and `jsTrim` used to settle the
-- sanitization claims.

theorem dropWhile_head_false {p : Char → Bool} :
    ∀ {l : Str} {a : Char} {t : Str}, l.dropWhile p = a :: t → p a = false := by
  intro l
  induction l with
  | nil => intro a t h; simp [List.dropWhile] at h
  | cons b l ih =>
      intro a t h
      by_cases hb : p b
      · rw [List.dropWhile_cons_of_pos hb] at h
        exact ih h
      · rw [List.dropWhile_cons_of_neg hb] at h
        cases h
        simpa using hb

theorem dropWhile_eq_self_of_head {p : Char → Bool} {l : Str}
    (h : ∀ a t, l = a :: t → p a = false) : l.dropWhile p = l := by
  cases l with
  | nil => simp
  | cons a t => exact List.dropWhile_cons_of_neg (by simp [h a t rfl])

theorem dropWhile_getLast_false {p : Char → Bool} :
    ∀ {l : Str} {a : Char}, l.getLast? = some a → p a = false →
      (l.dropWhile p).getLast? = some a := by
  intro l
  induction l with
  | nil => intro a h; simp at h
  | cons b t ih =>
      intro a hlast hpa
      cases t with
      | nil =>
          simp at hlast
          subst hlast
          rw [dropWhile_eq_self_of_head]
          · simp
          · intro x s hx
            cases hx
            exact hpa
      | cons c s =>
          rw [List.getLast?_cons_cons] at hlast
          by_cases hb : p b
          · rw [List.dropWhile_cons_of_pos hb]
            exact ih hlast hpa
          · rw [List.dropWhile_cons_of_neg hb, List.getLast?_cons_cons]
            exact hlast

/-- The first character of a trimmed string is not whitespace. -/
theorem jsTrim_head_false {l : Str} {a : Char} {t : Str}
    (h : jsTrim l = a :: t) : isJsWhitespace a = false := by
  have h2 : ((l.dropWhile isJsWhitespace).reverse.dropWhile
      isJsWhitespace).getLast? = some a := by
    rw [← List.head?_reverse]
    show (jsTrim l).head? = some a
    rw [h]
    rfl
  rcases hd : l.dropWhile isJsWhitespace with _ | ⟨c, v⟩
  · rw [hd] at h2
    simp at h2
  · have hc : isJsWhitespace c = false := dropWhile_head_false hd
    have hlastrev : (c :: v).reverse.getLast? = some c := by
      rw [List.getLast?_reverse]
      rfl
    have h3 := dropWhile_getLast_false (p := isJsWhitespace)
      (l := (c :: v).reverse) hlastrev hc
    rw [← hd] at h3
    rw [h2] at h3
    cases h3
    exact hc

/-- The last character of a trimmed string is not whitespace. -/
theorem jsTrim_getLast_false {l : Str} {a : Char}
    (h : (jsTrim l).getLast? = some a) : isJsWhitespace a = false := by
  unfold jsTrim at h
  rw [List.getLast?_reverse] at h
  rcases hcase :
      (l.dropWhile isJsWhitespace).reverse.dropWhile isJsWhitespace with
    _ | ⟨b, u⟩
  · rw [hcase] at h
    simp at h
  · rw [hcase] at h
    rw [List.head?_cons] at h
    cases h
    exact dropWhile_head_false hcase

theorem jsTrim_eq_self {m : Str} (h1 : m.dropWhile isJsWhitespace = m)
    (h2 : m.reverse.dropWhile isJsWhitespace = m.reverse) : jsTrim m = m := by
  unfold jsTrim
  rw [h1, h2, List.reverse_reverse]

/-- Trimming is idempotent. -/
theorem jsTrim_idem (l : Str) : jsTrim (jsTrim l) = jsTrim l := by
  apply jsTrim_eq_self
  · exact dropWhile_eq_self_of_head (fun a t h => jsTrim_head_false h)
  · apply dropWhile_eq_self_of_head
    intro a t h
    apply jsTrim_getLast_false (l := l)
    rw [← List.head?_reverse, h]
    rfl

theorem sanitizeOptions_mem {xs : List Str} {s : Str}
    (h : s ∈ sanitizeOptions xs) :
    jsTrim s = s ∧ 0 < s.length ∧ s.length ≤ 200 := by
  unfold sanitizeOptions at h
  have hk : optionKeep s = true := List.of_mem_filter h
  have hm : s ∈ xs.map jsTrim := List.mem_of_mem_filter h
  rcases List.mem_map.mp hm with ⟨y, _, hy⟩
  refine ⟨?_, ?_⟩
  · rw [← hy]
    exact jsTrim_idem y
  · unfold optionKeep at hk
    simpa using hk

theorem sanitizeOptions_idem (xs : List Str) :
    sanitizeOptions (sanitizeOptions xs) = sanitizeOptions xs := by
  have hmap : (sanitizeOptions xs).map jsTrim = sanitizeOptions xs := by
    rw [List.map_congr_left (fun s hs => (sanitizeOptions_mem hs).1)]
    exact List.map_id _
  show ((sanitizeOptions xs).map jsTrim).filter optionKeep = sanitizeOptions xs
  rw [hmap]
  apply List.filter_eq_self.mpr
  intro s hs
  unfold optionKeep
  simpa using (sanitizeOptions_mem hs).2

theorem sanitizeOptions_sublist (xs : List Str) :
    (sanitizeOptions xs).Sublist (xs.map jsTrim) :=
  List.filter_sublist _

theorem rlGet_rlSet (store : RLStore) (key : Str) (e : RateLimitEntry) :
    rlGet (rlSet store key e) key = some e := by
  unfold rlGet rlSet
  rw [List.find?_cons_of_pos _ (by simp)]
  rfl

/-- C9: `sanitizeOptions` is idempotent and canonicalizing: applying it
twice equals applying it once, every output entry is already trimmed,
non-empty and at most 200 characters, and the surviving entries keep their
original relative order (the output is a sublist of the trimmed input). -/
theorem c9_sanitizeOptions_canonical (xs : List Str) :
    sanitizeOptions (sanitizeOptions xs) = sanitizeOptions xs ∧
    (∀ s, s ∈ sanitizeOptions xs →
      jsTrim s = s ∧ 0 < s.length ∧ s.length ≤ 200) ∧
    (sanitizeOptions xs).Sublist (xs.map jsTrim) :=
  ⟨sanitizeOptions_idem xs, fun _ hs => sanitizeOptions_mem hs,
   sanitizeOptions_sublist xs⟩

/-- Witness for C9 at a concrete input list. -/
theorem c9_sanitizeOptions_canonical_witness :
    str "a" ∈ sanitizeOptions [str " a ", str "", str "b"] ∧
    (jsTrim (str "a") = str "a" ∧ 0 < (str "a").length ∧
      (str "a").length ≤ 200) :=
  ⟨by decide,
   (c9_sanitizeOptions_canonical [str " a ", str "", str "b"]).2.1
     (str "a") (by decide)⟩

/-- C2: the admin listing is gated by equality of the email against the
hard-coded string `admin@example.com`, not by the durable role attribute:
an actor whose role attribute is false but whose email matches is shown
every poll row (owner ids included), while an actor whose role attribute
is true but whose email differs is turned away. -/
theorem c2_admin_gate_is_hardcoded_email :
    adminPage [pollB]
        (some ⟨str "u-imposter", str "admin@example.com", false⟩) =
      AdminView.showPolls [pollB] ∧
    adminPage [pollB]
        (some ⟨str "u-true-admin", str "alice@example.com", true⟩) =
      AdminView.redirectPolls := by
  decide

/-- C8: the rate limiter is a fixed-window counter. From a fresh key,
calls at `t2, t3, t4` inside the window opened at `t1` yield
allowed = true, true, true, false with `remaining = maxRequests - count`
while allowed and `remaining = 0, resetTime unchanged` when denied; a call
at `t5` after the stored reset time opens a fresh window with count 1 and
reset time `t5 + windowMs`. -/
theorem c8_rateLimit_fixed_window (s0 : RLStore) (k : Str)
    (t1 t2 t3 t4 t5 : Int) (hfresh : rlGet s0 k = none)
    (h2 : ¬ t2 > t1 + 1000) (h3 : ¬ t3 > t1 + 1000) (h4 : ¬ t4 > t1 + 1000)
    (h5 : t5 > t1 + 1000) :
    ∃ s1 s2 s3 s4,
      rateLimit s0 t1 k 3 1000 = (⟨true, 2, t1 + 1000⟩, s1) ∧
      rateLimit s1 t2 k 3 1000 = (⟨true, 1, t1 + 1000⟩, s2) ∧
      rateLimit s2 t3 k 3 1000 = (⟨true, 0, t1 + 1000⟩, s3) ∧
      rateLimit s3 t4 k 3 1000 = (⟨false, 0, t1 + 1000⟩, s3) ∧
      rateLimit s3 t5 k 3 1000 = (⟨true, 2, t5 + 1000⟩, s4) ∧
      rlGet s4 k = some ⟨1, t5 + 1000⟩ := by
  refine ⟨rlSet s0 k ⟨1, t1 + 1000⟩,
    rlSet (rlSet s0 k ⟨1, t1 + 1000⟩) k ⟨2, t1 + 1000⟩,
    rlSet (rlSet (rlSet s0 k ⟨1, t1 + 1000⟩) k ⟨2, t1 + 1000⟩) k
      ⟨3, t1 + 1000⟩,
    rlSet (rlSet (rlSet (rlSet s0 k ⟨1, t1 + 1000⟩) k ⟨2, t1 + 1000⟩) k
      ⟨3, t1 + 1000⟩) k ⟨1, t5 + 1000⟩,
    ?_, ?_, ?_, ?_, ?_, ?_⟩
  · simp only [rateLimit, hfresh]
    norm_num
  · simp only [rateLimit, rlGet_rlSet]
    rw [if_neg h2, if_neg (by norm_num)]
    norm_num
  · simp only [rateLimit, rlGet_rlSet]
    rw [if_neg h3, if_neg (by norm_num)]
    norm_num
  · simp only [rateLimit, rlGet_rlSet]
    rw [if_neg h4, if_pos (by norm_num)]
  · simp only [rateLimit, rlGet_rlSet]
    rw [if_pos h5]
    norm_num
  · exact rlGet_rlSet _ _ _

/-- Witness for C8 at a concrete store, key and times. -/
theorem c8_rateLimit_fixed_window_witness :
    ∃ s1 s2 s3 s4,
      rateLimit [] 0 (str "k") 3 1000 = (⟨true, 2, 0 + 1000⟩, s1) ∧
      rateLimit s1 1 (str "k") 3 1000 = (⟨true, 1, 0 + 1000⟩, s2) ∧
      rateLimit s2 2 (str "k") 3 1000 = (⟨true, 0, 0 + 1000⟩, s3) ∧
      rateLimit s3 3 (str "k") 3 1000 = (⟨false, 0, 0 + 1000⟩, s3) ∧
      rateLimit s3 2000 (str "k") 3 1000 = (⟨true, 2, 2000 + 1000⟩, s4) ∧
      rlGet s4 (str "k") = some ⟨1, 2000 + 1000⟩ :=
  c8_rateLimit_fixed_window [] (str "k") 0 1 2 3 2000 (by decide)
    (by norm_num) (by norm_num) (by norm_num) (by norm_num)

/-- Counterexample to C1 as stated: actor `A` deletes the poll owned by
`B`; the ownership-scoped delete matches zero rows, the store reports no
error, and `deletePoll` returns the success result `(none, unchanged)`
instead of a failure. -/
theorem c1_deletePoll_zero_rows_success :
    deletePoll stB (some (str "A")) (str "p1") = (none, stB) := by
  decide

/-- C1 amended: for an authenticated actor `A` and a poll `P` owned by a
different actor, `updatePoll` fails (generic not-found/permission error)
and leaves the state unchanged, and `deletePoll` leaves the row in place —
but `deletePoll` reports success, since the zero-row delete is not
detected. -/
theorem c1_cross_owner_update_delete (st : AppState) (A : Str) (P : Poll)
    (questionRaw : Str) (options : List Str)
    (hP : P ∈ st.polls) (hOwn : P.user_id ≠ A)
    (hUnique : ∀ Q ∈ st.polls, Q.id = P.id → Q = P) :
    ((updatePoll st (some A) P.id questionRaw options).1 ≠ none ∧
     (updatePoll st (some A) P.id questionRaw options).2 = st) ∧
    ((deletePoll st (some A) P.id).1 = none ∧
     P ∈ (deletePoll st (some A) P.id).2.polls) := by
  constructor
  · rcases hfind : st.polls.find? (fun p => p.id = P.id) with _ | Q
    · exfalso
      have hnone := List.find?_eq_none.mp hfind P hP
      simp at hnone
    · have hQmem := List.mem_of_find?_eq_some hfind
      have hQid : Q.id = P.id := by simpa using List.find?_some hfind
      have hQP : Q = P := hUnique Q hQmem hQid
      subst hQP
      simp [updatePoll, hfind, hOwn]
  · refine ⟨rfl, ?_⟩
    simp only [deletePoll]
    exact List.mem_filter.mpr ⟨hP, by simp [hOwn]⟩

/-- Witness for the amended C1 at the concrete fixture state. -/
theorem c1_cross_owner_update_delete_witness :
    ((updatePoll stB (some (str "A")) pollB.id (str "q2")
        [str "a", str "b"]).1 ≠ none ∧
     (updatePoll stB (some (str "A")) pollB.id (str "q2")
        [str "a", str "b"]).2 = stB) ∧
    ((deletePoll stB (some (str "A")) pollB.id).1 = none ∧
     pollB ∈ (deletePoll stB (some (str "A")) pollB.id).2.polls) :=
  c1_cross_owner_update_delete stB (str "A") pollB (str "q2")
    [str "a", str "b"] (by decide) (by decide) (by decide)

theorem sanitizeOptions_eq_map {options : List Str}
    (hkeep : ∀ o ∈ options, 0 < (jsTrim o).length ∧ (jsTrim o).length ≤ 200) :
    sanitizeOptions options = options.map jsTrim := by
  unfold sanitizeOptions
  apply List.filter_eq_self.mpr
  intro s hs
  rcases List.mem_map.mp hs with ⟨o, ho, rfl⟩
  unfold optionKeep
  simpa using hkeep o ho

theorem sanitizeOptions_eq_map_of_length {options : List Str}
    (h : (sanitizeOptions options).length = options.length) :
    sanitizeOptions options = options.map jsTrim := by
  unfold sanitizeOptions at h ⊢
  refine (List.filter_sublist _).eq_of_length ?_
  rw [h, List.length_map]

theorem nodup_of_setSize_eq {l : List Str} (h : setSize l = l.length) :
    l.Nodup := by
  unfold setSize at h
  exact List.dedup_eq_self.mp ((List.dedup_sublist l).eq_of_length h)

theorem validatePollInput_valid {questionRaw : Str} {options : List Str}
    (hq1 : 0 < (jsTrim questionRaw).length)
    (hq2 : (jsTrim questionRaw).length ≤ 500)
    (ho1 : 2 ≤ options.length) (ho2 : options.length ≤ 10)
    (hkeep : ∀ o ∈ options, 0 < (jsTrim o).length ∧ (jsTrim o).length ≤ 200)
    (hnodup : (options.map jsTrim).Nodup) :
    validatePollInput questionRaw options = none := by
  have hsan := sanitizeOptions_eq_map hkeep
  have hdedup : (options.map jsTrim).dedup = options.map jsTrim :=
    List.dedup_eq_self.mpr hnodup
  simp only [validatePollInput, hsan]
  split_ifs with hB hC hD hE hF hG
  · omega
  · omega
  · omega
  · omega
  · rw [List.length_map] at hF
    exact absurd rfl hF
  · rw [setSize, hdedup] at hG
    exact absurd rfl hG
  · rfl

theorem validatePollInput_dup {questionRaw : Str} {options : List Str}
    (hdup : ¬ (options.map jsTrim).Nodup) :
    ∃ m, validatePollInput questionRaw options = some m ∧
      m ∈ validationMsgs := by
  simp only [validatePollInput]
  split_ifs with hB hC hD hE hF hG
  · exact ⟨msgQuestionRequired, rfl, by simp [validationMsgs]⟩
  · exact ⟨msgQuestionLong, rfl, by simp [validationMsgs]⟩
  · exact ⟨msgMinOptions, rfl, by simp [validationMsgs]⟩
  · exact ⟨msgMaxOptions, rfl, by simp [validationMsgs]⟩
  · exact ⟨msgOptionLength, rfl, by simp [validationMsgs]⟩
  · exact ⟨msgDuplicateOptions, rfl, by simp [validationMsgs]⟩
  · exfalso
    have hmap := sanitizeOptions_eq_map_of_length (of_not_not hF)
    have hsize := of_not_not hG
    rw [hmap] at hsize
    exact hdup (nodup_of_setSize_eq hsize)

/-- C6: for an authenticated actor, an admitted rate-limit check, a trimmed
question of 1 to 500 characters and 2 to 10 options that are all non-empty,
at most 200 characters and pairwise distinct after trimming, `createPoll`
succeeds and stores a row owned by the actor whose options are exactly the
trimmed input, in order. -/
theorem c6_createPoll_valid_input (st : AppState) (now : Int)
    (uid clientIP questionRaw : Str) (options : List Str) (newId : Str)
    (hrate : (rateLimit st.rl now (str "createPoll:" ++ clientIP)
      10 3600000).1.allowed = true)
    (hq1 : 0 < (jsTrim questionRaw).length)
    (hq2 : (jsTrim questionRaw).length ≤ 500)
    (ho1 : 2 ≤ options.length) (ho2 : options.length ≤ 10)
    (hkeep : ∀ o ∈ options, 0 < (jsTrim o).length ∧ (jsTrim o).length ≤ 200)
    (hnodup : (options.map jsTrim).Nodup) :
    (createPoll st now (some uid) clientIP questionRaw options newId).1 =
      none ∧
    (createPoll st now (some uid) clientIP questionRaw options
      newId).2.polls =
      st.polls ++ [⟨newId, uid, jsTrim questionRaw, options.map jsTrim⟩] := by
  have hval := validatePollInput_valid hq1 hq2 ho1 ho2 hkeep hnodup
  have hsan := sanitizeOptions_eq_map hkeep
  simp only [createPoll, hval, hsan]
  rw [if_neg (by simp [hrate])]
  exact ⟨rfl, rfl⟩

/-- Witness for C6 at a concrete valid creation. -/
theorem c6_createPoll_valid_input_witness :
    (createPoll ⟨[], [], []⟩ 0 (some (str "u1")) (str "1.1.1.1")
      (str " favorite? ") [str " a ", str "b"] (str "p9")).1 = none ∧
    (createPoll ⟨[], [], []⟩ 0 (some (str "u1")) (str "1.1.1.1")
      (str " favorite? ") [str " a ", str "b"] (str "p9")).2.polls =
      [] ++ [⟨str "p9", str "u1", jsTrim (str " favorite? "),
        [str " a ", str "b"].map jsTrim⟩] :=
  c6_createPoll_valid_input ⟨[], [], []⟩ 0 (str "u1") (str "1.1.1.1")
    (str " favorite? ") [str " a ", str "b"] (str "p9") (by decide)
    (by decide) (by decide) (by decide) (by decide) (by decide) (by decide)

/-- C7: when the option list contains two entries equal after trimming,
`createPoll` (authenticated, rate-limit admitted) and `updatePoll`
(authenticated owner of an existing poll) both stop at the validation
stage with one of its error messages and write nothing: the polls table is
unchanged. -/
theorem c7_trim_duplicate_rejected (st : AppState) (now : Int)
    (uid clientIP questionRaw : Str) (options : List Str) (newId id : Str)
    (P : Poll)
    (hrate : (rateLimit st.rl now (str "createPoll:" ++ clientIP)
      10 3600000).1.allowed = true)
    (hdup : ¬ (options.map jsTrim).Nodup)
    (hP : P ∈ st.polls) (hPid : P.id = id) (hPown : P.user_id = uid)
    (hUnique : ∀ Q ∈ st.polls, Q.id = id → Q = P) :
    (∃ m, (createPoll st now (some uid) clientIP questionRaw options
        newId).1 = some m ∧ m ∈ validationMsgs) ∧
    (createPoll st now (some uid) clientIP questionRaw options
      newId).2.polls = st.polls ∧
    (∃ m, (updatePoll st (some uid) id questionRaw options).1 = some m ∧
      m ∈ validationMsgs) ∧
    (updatePoll st (some uid) id questionRaw options).2.polls = st.polls := by
  rcases @validatePollInput_dup questionRaw options hdup with ⟨m, hm, hmem⟩
  have hcreate :
      createPoll st now (some uid) clientIP questionRaw options newId =
        (some m, { st with rl :=
          (rateLimit st.rl now (str "createPoll:" ++ clientIP)
            10 3600000).2 }) := by
    simp only [createPoll, hm]
    rw [if_neg (by simp [hrate])]
  have hupdate :
      updatePoll st (some uid) id questionRaw options = (some m, st) := by
    rcases hfind : st.polls.find? (fun p => p.id = id) with _ | Q
    · exfalso
      have hnone := List.find?_eq_none.mp hfind P hP
      simp [hPid] at hnone
    · have hQmem := List.mem_of_find?_eq_some hfind
      have hQid : Q.id = id := by simpa using List.find?_some hfind
      have hown2 : ¬ Q.user_id ≠ uid := by
        rw [hUnique Q hQmem hQid]
        exact not_not_intro hPown
      simp only [updatePoll, hfind, hm]
      rw [if_neg hown2]
  rw [hcreate, hupdate]
  exact ⟨⟨m, rfl, hmem⟩, rfl, ⟨m, rfl, hmem⟩, rfl⟩

/-- Witness for C7: a duplicate pair after trimming is rejected by both
actions at the fixture state. -/
theorem c7_trim_duplicate_rejected_witness :
    (∃ m, (createPoll stB 0 (some (str "B")) (str "ip") (str "q")
        [str "x", str " x "] (str "p9")).1 = some m ∧
      m ∈ validationMsgs) ∧
    (createPoll stB 0 (some (str "B")) (str "ip") (str "q")
      [str "x", str " x "] (str "p9")).2.polls = stB.polls ∧
    (∃ m, (updatePoll stB (some (str "B")) (str "p1") (str "q")
        [str "x", str " x "]).1 = some m ∧ m ∈ validationMsgs) ∧
    (updatePoll stB (some (str "B")) (str "p1") (str "q")
      [str "x", str " x "]).2.polls = stB.polls :=
  c7_trim_duplicate_rejected stB 0 (str "B") (str "ip") (str "q")
    [str "x", str " x "] (str "p9") (str "p1") pollB (by decide) (by decide)
    (by decide) (by decide) (by decide) (by decide)

/-- Counterexample to C3 as stated: in the `POST /polls/p1/vote` route, a
concurrent vote by the same authenticated voter lands between the
pre-check and the insert; the insert fails with the uniqueness-constraint
violation and the route returns the raw store message with status 500 —
not the already-voted error of the pre-check. -/
theorem c3_postVote_raw_store_error :
    (postVote [pollB] [] [⟨str "p1", some (str "u1"), 0⟩] (some (str "u1"))
      (str "p1") (JsonVal.num 0)).1 =
      (some duplicateKeyError.message, 500) ∧
    duplicateKeyError.message ≠ msgAlreadyVoted := by
  decide

/-- C3 amended: the de-duplicating variant of the `voteOnPoll` server
action does collapse both duplicate-detection paths: whenever the
authenticated voter already has a vote row — seen by the pre-check or
appearing concurrently so that the insert violates the uniqueness
constraint — the result is exactly the already-voted error and no vote is
written. (The non-translating variant and the REST route return the raw
store message instead, per the counterexample.) -/
theorem c3_dedup_variant_translates (st : AppState) (now : Int)
    (voteIp : Str) (race : List Vote) (uid pollId : Str) (i : Int)
    (P : Poll)
    (hrate : (rateLimit st.rl now (str "vote:" ++ voteIp)
      5 60000).1.allowed = true)
    (hpid : pollId ≠ [])
    (hfind : st.polls.find? (fun p => p.id = pollId) = some P)
    (hi0 : 0 ≤ i) (hilen : i < (P.options.length : Int))
    (hprior : ∃ w ∈ st.votes ++ race,
      w.poll_id = pollId ∧ w.user_id = some uid) :
    (voteOnPollDedup st now voteIp race (some uid) pollId (some i)).1 =
      some msgAlreadyVoted ∧
    (voteOnPollDedup st now voteIp race (some uid) pollId
      (some i)).2.votes = st.votes := by
  simp only [voteOnPollDedup, Option.getD_some]
  rw [if_neg (by simp [hrate])]
  rw [if_neg (by simp [hpid]; omega)]
  simp only [hfind]
  rw [if_neg (by simp; omega)]
  by_cases hpc : hasPriorVote st.votes (some uid) pollId
  · rw [if_pos hpc]
    exact ⟨rfl, rfl⟩
  · rw [if_neg hpc]
    have hins : votesInsert (st.votes ++ race)
        ⟨pollId, some uid, ((i : ℚ))⟩ = .error duplicateKeyError := by
      rcases hprior with ⟨w, hw, hw1, hw2⟩
      simp only [votesInsert]
      rw [if_pos (List.any_eq_true.mpr ⟨w, hw, by simp [hw1, hw2]⟩)]
    rw [hins]
    simp [duplicateKeyError]

/-- Witness for the amended C3: the insert-time violation path at a
concrete state returns the already-voted error. -/
theorem c3_dedup_variant_translates_witness :
    (voteOnPollDedup stB 0 (str "ip") [⟨str "p1", some (str "u1"), 0⟩]
      (some (str "u1")) (str "p1") (some 0)).1 = some msgAlreadyVoted ∧
    (voteOnPollDedup stB 0 (str "ip") [⟨str "p1", some (str "u1"), 0⟩]
      (some (str "u1")) (str "p1") (some 0)).2.votes = stB.votes :=
  c3_dedup_variant_translates stB 0 (str "ip")
    [⟨str "p1", some (str "u1"), 0⟩] (str "u1") (str "p1") 0 pollB
    (by decide) (by decide) (by decide) (by decide) (by decide)
    ⟨⟨str "p1", some (str "u1"), 0⟩, by decide, by decide⟩

/-- Counterexample to C4 as stated: the JSON vote route accepts the
non-integer option index 1/2 on a two-option poll — `typeof` and the two
order comparisons all pass — and inserts a vote row with the fractional
index, reporting success. -/
theorem c4_postVote_accepts_non_integer :
    postVote [pollB] [] [] none (str "p1") (JsonVal.num (1 / 2)) =
      ((none, 200), [⟨str "p1", none, 1 / 2⟩]) := by
  have hfind : List.find? (fun p => p.id = str "p1") [pollB] = some pollB := by
    decide
  simp only [postVote]
  rw [if_neg (by push_neg; exact ⟨by decide, by norm_num⟩)]
  simp only [hfind]
  rw [if_neg (by norm_num [pollB])]
  rw [if_neg (by simp [hasPriorVote])]
  simp [votesInsert]

/-- C4 amended: on both vote paths a row is inserted (or success reported)
only if the referenced poll exists and the submitted index is in range
`0 <= idx < poll.options.length`; the server action additionally yields an
integer by construction (`Number.parseInt`), but the JSON route checks
only `typeof`/range over JSON numbers, so a non-integral number in range
is accepted (see the counterexample). Out-of-range, NaN and non-number
submissions are rejected with an error and leave the votes table
unchanged (contrapositive). -/
theorem c4_vote_insert_range :
    (∀ (st : AppState) (race : List Vote) (user : Option Str)
        (pollId : Str) (oi : Option Int),
      ((voteOnPoll st race user pollId oi).2.votes ≠ st.votes ∨
        (voteOnPoll st race user pollId oi).1 = none) →
      ∃ i P, oi = some i ∧
        st.polls.find? (fun p => p.id = pollId) = some P ∧
        0 ≤ i ∧ i < (P.options.length : Int)) ∧
    (∀ (polls : List Poll) (votes race : List Vote) (user : Option Str)
        (pollId : Str) (oi : JsonVal),
      ((postVote polls votes race user pollId oi).2 ≠ votes ∨
        (postVote polls votes race user pollId oi).1.1 = none) →
      ∃ q P, oi = JsonVal.num q ∧
        polls.find? (fun p => p.id = pollId) = some P ∧
        0 ≤ q ∧ q < (P.options.length : ℚ)) := by
  constructor
  · intro st race user pollId oi h
    by_cases h1 : pollId = [] ∨ oi = none ∨ oi.getD 0 < 0
    · have he : voteOnPoll st race user pollId oi =
          (some msgInvalidPollOrIndex, st) := by
        simp only [voteOnPoll]
        rw [if_pos h1]
      rw [he] at h
      simp at h
    · rcases hfind : st.polls.find? (fun p => p.id = pollId) with _ | P
      · have he : voteOnPoll st race user pollId oi =
            (some msgPollNotFound, st) := by
          simp only [voteOnPoll]
          rw [if_neg h1, hfind]
        rw [he] at h
        simp at h
      · by_cases h2 : (P.options.length : Int) ≤ oi.getD 0
        · have he : voteOnPoll st race user pollId oi =
              (some msgInvalidOption, st) := by
            simp only [voteOnPoll]
            rw [if_neg h1]
            simp only [hfind]
            rw [if_pos h2]
          rw [he] at h
          simp at h
        · push_neg at h1 h2
          rcases Option.ne_none_iff_exists.mp h1.2.1 with ⟨i, hi⟩
          refine ⟨i, P, hi.symm, hfind, ?_, ?_⟩
          · have := h1.2.2
            rw [← hi] at this
            simpa using this
          · rw [← hi] at h2
            simpa using h2
  · intro polls votes race user pollId oi h
    cases oi with
    | other =>
        have he : postVote polls votes race user pollId JsonVal.other =
            ((some msgInvalidPollOrIndex, 400), votes) := rfl
        rw [he] at h
        simp at h
    | num q =>
        by_cases h1 : pollId = [] ∨ q < 0
        · have he : postVote polls votes race user pollId (JsonVal.num q) =
              ((some msgInvalidPollOrIndex, 400), votes) := by
            simp only [postVote]
            rw [if_pos h1]
          rw [he] at h
          simp at h
        · rcases hfind : polls.find? (fun p => p.id = pollId) with _ | P
          · have he : postVote polls votes race user pollId
                (JsonVal.num q) = ((some msgPollNotFound, 404), votes) := by
              simp only [postVote]
              rw [if_neg h1, hfind]
            rw [he] at h
            simp at h
          · by_cases h2 : (P.options.length : ℚ) ≤ q
            · have he : postVote polls votes race user pollId
                  (JsonVal.num q) =
                  ((some msgInvalidOption, 400), votes) := by
                simp only [postVote]
                rw [if_neg h1]
                simp only [hfind]
                rw [if_pos h2]
              rw [he] at h
              simp at h
            · push_neg at h1 h2
              exact ⟨q, P, rfl, hfind, h1.2, h2⟩

/-- Witness for the amended C4: a successful in-range vote through the
server action certifies poll existence and the range bound. -/
theorem c4_vote_insert_range_witness :
    ∃ i P, (some 0 : Option Int) = some i ∧
      List.find? (fun p => p.id = str "p1") [pollB] = some P ∧
      0 ≤ i ∧ i < (P.options.length : Int) :=
  c4_vote_insert_range.1 stB [] none (str "p1") (some 0)
    (Or.inr (by decide))

/-- C5 evaluated at the failing input: after ten creations by user `u1`
from IP `1.1.1.1`, the eleventh attempt by the same actor succeeds and
writes a row when sent from IP `2.2.2.2` (the per-actor limit the claim
requires does not exist), while a different actor sharing IP `1.1.1.1` is
denied on their first attempt — the limiter key is the client IP, not the
actor identity. -/
theorem c5_createPoll_rate_key_is_ip :
    (c5Iter 10).polls.length = 10 ∧
    (createPoll (c5Iter 10) 0 (some (str "u1")) (str "1.1.1.1") (str "q")
      c5Opts (str "p")).1 = some msgTooManyPolls ∧
    (createPoll (c5Iter 10) 0 (some (str "u1")) (str "2.2.2.2") (str "q")
      c5Opts (str "p11")).1 = none ∧
    (createPoll (c5Iter 10) 0 (some (str "u1")) (str "2.2.2.2") (str "q")
      c5Opts (str "p11")).2.polls.length = 11 ∧
    (createPoll (c5Iter 10) 0 (some (str "u2")) (str "1.1.1.1") (str "q")
      c5Opts (str "px")).1 = some msgTooManyPolls := by
  decide

theorem rateLimit_count_bound (k : Str) (mx : Int) (hmx : 1 ≤ mx)
    (s : RLStore)
    (hs : ∀ e, rlGet s k = some e → 1 ≤ e.count ∧ e.count ≤ mx)
    (now w : Int) :
    ∀ e, rlGet (rateLimit s now k mx w).2 k = some e →
      1 ≤ e.count ∧ e.count ≤ mx := by
  intro e he
  unfold rateLimit at he
  rcases hget : rlGet s k with _ | entry
  · simp only [hget] at he
    rw [rlGet_rlSet] at he
    cases he
    exact ⟨le_refl 1, hmx⟩
  · simp only [hget] at he
    split_ifs at he with h1 h2
    · rw [rlGet_rlSet] at he
      cases he
      exact ⟨le_refl 1, hmx⟩
    · exact hs e he
    · rw [rlGet_rlSet] at he
      cases he
      have h3 := hs entry hget
      refine ⟨?_, ?_⟩
      · show 1 ≤ entry.count + 1
        omega
      · show entry.count + 1 ≤ mx
        omega

theorem rlRun_count_bound (k : Str) (mx : Int) (hmx : 1 ≤ mx) :
    ∀ (calls : List (Int × Int)) (s : RLStore),
      (∀ e, rlGet s k = some e → 1 ≤ e.count ∧ e.count ≤ mx) →
      ∀ e, rlGet (rlRun k mx calls s) k = some e →
        1 ≤ e.count ∧ e.count ≤ mx := by
  intro calls
  induction calls with
  | nil => intro s hs e he; exact hs e he
  | cons c rest ih =>
      intro s hs e he
      rcases c with ⟨now, w⟩
      exact ih _ (rateLimit_count_bound k mx hmx s hs now w) e he

/-- C10: for `maxRequests >= 1` and any call sequence on one key from the
empty store, the stored count stays within `1 .. maxRequests` (the counter
saturates while denied), every returned `remaining` is non-negative, and a
denial returns `remaining = 0` with the stored entry resetTime and an
unchanged store. -/
theorem c10_rateLimit_saturation (k : Str) (mx : Int) (hmx : 1 ≤ mx) :
    (∀ calls e, rlGet (rlRun k mx calls []) k = some e →
      1 ≤ e.count ∧ e.count ≤ mx) ∧
    (∀ (s : RLStore) (now w : Int),
      0 ≤ (rateLimit s now k mx w).1.remaining) ∧
    (∀ (s : RLStore) (now w : Int) (e : RateLimitEntry),
      rlGet s k = some e →
      (rateLimit s now k mx w).1.allowed = false →
      (rateLimit s now k mx w).1.remaining = 0 ∧
      (rateLimit s now k mx w).1.resetTime = e.resetTime ∧
      (rateLimit s now k mx w).2 = s) := by
  refine ⟨?_, ?_, ?_⟩
  · intro calls e he
    exact rlRun_count_bound k mx hmx calls [] (by intro e h; cases h) e he
  · intro s now w
    unfold rateLimit
    rcases hget : rlGet s k with _ | entry
    · simp only [hget]
      show 0 ≤ mx - 1
      omega
    · simp only [hget]
      split_ifs with h1 h2
      · show 0 ≤ mx - 1
        omega
      · show (0 : Int) ≤ 0
        omega
      · show 0 ≤ mx - (entry.count + 1)
        omega
  · intro s now w e hget hfalse
    unfold rateLimit at hfalse ⊢
    simp only [hget] at hfalse ⊢
    split_ifs at hfalse ⊢ with h1 h2
    all_goals simp_all

/-- Witness for C10 at a concrete key, bound and call sequence. -/
theorem c10_rateLimit_saturation_witness :
    rlGet (rlRun (str "k") 3 [(0, 1000), (500, 1000)] []) (str "k") =
      some ⟨2, 1000⟩ ∧ ((1 : Int) ≤ 2 ∧ (2 : Int) ≤ 3) :=
  ⟨by decide,
   (c10_rateLimit_saturation (str "k") 3 (by norm_num)).1
     [(0, 1000), (500, 1000)] ⟨2, 1000⟩ (by decide)⟩
